import Mathlib

/-!
Verification development for the `simple_esn` repository
(`src/simple_esn/simple_esn.py`, class `SimpleESN`).

Embedding conventions:
* numpy floating-point values are modelled as real numbers (`ℝ`); `np.tanh`
  is `Real.tanh`.  Division is Lean's total real division; the one place the
  source divides (spectral-radius rescaling) is discussed at its definition.
* a numpy 2-D array is a `Mat`: explicit row/column counts plus a total
  entry function (entries outside the stated shape are irrelevant junk,
  exactly as numpy never reads them).
* the random generator (`self.random_state`) is an external collaborator; a
  `Draws` record carries the values it returns during one initialization:
  the shifted uniform matrix `rand(n,n) - 0.5` for the recurrent weights,
  the eigensolver's spectral radius for that matrix, the shifted uniform
  input-weight matrix, and the permutation returned by
  `random_state.permutation(arange(1+n_features, 1+n_features+n_components))`.
  Theorems that depend on the permutation contract take the hypothesis that
  `Draws.perm` is a permutation of that integer range.
* exceptions are modelled with `Except Err`.  `Err.validationError` is
  `check_array` rejecting an empty array (default `ensure_min_samples=1`,
  `ensure_min_features=1`); `Err.dimMismatch` is the `ValueError` numpy's
  `dot` raises when `input_weights_.dot(u)` has misaligned inner dimensions;
  `Err.indexError` is numpy fancy indexing `components_[readout_idx_, ...]`
  with an out-of-range index.  The Python source itself raises nothing.
-/

/-- A numpy 2-D array: shape plus entry function. -/
structure Mat where
  rows : ℕ
  cols : ℕ
  entry : ℕ → ℕ → ℝ

/-- Failure modes observable when running the source (all raised by numpy or
sklearn collaborators; the `SimpleESN` class itself contains no `raise`). -/
inductive Err where
  | validationError : Err
  | dimMismatch : Err
  | indexError : Err
deriving DecidableEq, Repr

/-- The attributes of a `SimpleESN` object: constructor parameters plus the
lazily created weight structures (`None` in Python becomes `Option.none`).
`components_` is the state trace attribute set by propagation. -/
structure ESNState where
  n_readout : ℕ
  n_components : ℕ
  damping : ℝ
  weight_scaling : ℝ
  discard_steps : ℕ
  input_weights_ : Option Mat
  readout_idx_ : Option (List ℕ)
  weights_ : Option Mat
  components_ : Option Mat

/-- One initialization's worth of collaborator outputs, in the order the
source consumes them: `W = random_state.rand(nc, nc) - 0.5`, `rho` the value
of `np.max(np.abs(la.eig(W * anything)[0]))` style eigensolver call on the
scaled draw (the source computes it on `W` itself), `Iw = rand(nc, 1+nf) - 0.5`,
`perm = permutation(arange(1+nf, 1+nf+nc))`. -/
structure Draws where
  W : ℕ → ℕ → ℝ
  rho : ℝ
  Iw : ℕ → ℕ → ℝ
  perm : List ℕ

/-- `SimpleESN.__init__` (lines 89–107): stores the parameters and sets the
three weight attributes to `None`.  The body contains no validation and no
`raise` (with an `int`/`None` seed `check_random_state` always succeeds), so
the translation is total; it is wrapped in `Except` so that the spec's claim
that construction can fail is statable. -/
def esnInitE (n_readout n_components : ℕ) (damping weight_scaling : ℝ)
    (discard_steps : ℕ) : Except Err ESNState :=
  Except.ok
    { n_readout := n_readout, n_components := n_components, damping := damping,
      weight_scaling := weight_scaling, discard_steps := discard_steps,
      input_weights_ := none, readout_idx_ := none, weights_ := none,
      components_ := none }

/-- The Python signature's default arguments:
`n_components=100, damping=0.5, weight_scaling=0.9, discard_steps=0`. -/
def esnInitDefault (n_readout : ℕ) : Except Err ESNState :=
  esnInitE n_readout 100 0.5 0.9 0

/-- Row `t` of `U = np.concatenate((np.ones((n_samples,1)), x), axis=1)`
(lines 132, 135): the input row prefixed with the constant bias 1. -/
def uRow (x : Mat) (t : ℕ) : ℕ → ℝ :=
  fun i => if i = 0 then 1 else x.entry t (i - 1)

/-- `np.vstack((u, curr_))[:, 0]` (line 139): the vertical concatenation of a
length-`k` vector with the activation vector below it. -/
def vstackCol (u a : ℕ → ℝ) (k : ℕ) : ℕ → ℝ :=
  fun i => if i < k then u i else a (i - k)

/-- Row `i` of a matrix–vector product `M.dot(v)` with inner dimension `n`. -/
def dotRow (M : ℕ → ℕ → ℝ) (n : ℕ) (v : ℕ → ℝ) (i : ℕ) : ℝ :=
  Finset.sum (Finset.range n) (fun j => M i j * v j)

/-- The loop body's state update (lines 136–138):
`curr_ = (1-damping)*curr_ + damping*np.tanh(input_weights_.dot(u) + weights_.dot(curr_))`. -/
noncomputable def stepCurr (iw w : Mat) (damping : ℝ) (u a : ℕ → ℝ) : ℕ → ℝ :=
  fun i =>
    (1 - damping) * a i +
      damping * Real.tanh (dotRow iw.entry iw.cols u i + dotRow w.entry w.cols a i)

/-- One iteration of the `for t in range(n_samples)` loop (lines 134–139):
updates `curr_` and writes column `t` of `components_`.  The loop state is the
pair (current activation, components array written so far). -/
noncomputable def loopBody (iw w : Mat) (damping : ℝ) (x : Mat) (k : ℕ)
    (st : (ℕ → ℝ) × (ℕ → ℕ → ℝ)) (t : ℕ) : (ℕ → ℝ) × (ℕ → ℕ → ℝ) :=
  (stepCurr iw w damping (uRow x t) st.1,
   fun i s =>
     if s = t then vstackCol (uRow x t) (stepCurr iw w damping (uRow x t) st.1) k i
     else st.2 i s)

/-- The whole propagation loop, starting from `curr_ = np.zeros((nc,1))`
(line 131) and `components_ = np.zeros(...)` (lines 127–129). -/
noncomputable def esnLoop (iw w : Mat) (damping : ℝ) (x : Mat) (k ns : ℕ) :
    (ℕ → ℝ) × (ℕ → ℕ → ℝ) :=
  (List.range ns).foldl (loopBody iw w damping x k) (fun _ => 0, fun _ _ => 0)

/-- The `components_` array produced by propagation (lines 127–139, identical
code at lines 212–223): shape `(1 + n_features + n_components, n_samples)`,
columns filled by the loop. -/
noncomputable def componentsOf (iw w : Mat) (damping : ℝ) (x : Mat) (nc : ℕ) : Mat :=
  ⟨1 + x.cols + nc, x.rows, (esnLoop iw w damping x (1 + x.cols) x.rows).2⟩

/-- The freshly drawn recurrent weight matrix `rand(nc,nc) - 0.5`
(lines 112–114), before rescaling. -/
def drawnWeights (st : ESNState) (dr : Draws) : Mat :=
  ⟨st.n_components, st.n_components, dr.W⟩

/-- The rescaled recurrent weights (lines 112–117):
`weights_ *= weight_scaling / spectral_radius`.  The division is unguarded in
the source; with IEEE floats a zero `spectral_radius` silently produces
non-finite entries (a warning, not an exception).  Lean's total real division
returns 0 there; no theorem below relies on the value at `rho = 0`, only on
the fact that no exception is raised. -/
noncomputable def freshWeights (st : ESNState) (dr : Draws) : Mat :=
  ⟨st.n_components, st.n_components,
   fun i j => dr.W i j * (st.weight_scaling / dr.rho)⟩

/-- The input weight matrix `rand(nc, 1 + n_features) - 0.5` (lines 119–121). -/
def freshInputWeights (st : ESNState) (dr : Draws) (nf : ℕ) : Mat :=
  ⟨st.n_components, 1 + nf, dr.Iw⟩

/-- `readout_idx_ = permutation(arange(1+nf, 1+nf+nc))[:n_readout]`
(lines 123–125): a prefix of the drawn permutation, in draw order.  Python
slicing truncates silently when `n_readout` exceeds the list length. -/
def freshReadout (st : ESNState) (dr : Draws) : List ℕ :=
  dr.perm.take st.n_readout

/-- `components_[readout_idx_, discard_steps:].T` (lines 177 and 225): numpy
fancy row indexing, a column slice from `discard_steps` on (clamped, so an
over-large `discard_steps` yields zero columns), then transpose.  Fancy
indexing raises `IndexError` when an index is out of range. -/
def readoutE (comps : Mat) (idx : List ℕ) (discard : ℕ) : Except Err Mat :=
  if ∀ j ∈ idx, j < comps.rows then
    Except.ok
      ⟨comps.cols - discard, idx.length,
       fun i j => comps.entry (idx.getD j 0) (i + discard)⟩
  else Except.error Err.indexError

/-- The state trace `_fit_transform` computes (lines 127–139), built from the
fresh draws. -/
noncomputable def fitComponents (st : ESNState) (dr : Draws) (x : Mat) : Mat :=
  componentsOf (freshInputWeights st dr x.cols) (freshWeights st dr) st.damping x
    st.n_components

/-- The object state after `_fit_transform` (lines 109–141): all three weight
structures are unconditionally overwritten with fresh draws, and
`components_` with the new trace. -/
noncomputable def fitState (st : ESNState) (dr : Draws) (x : Mat) : ESNState :=
  { st with
    weights_ := some (freshWeights st dr),
    input_weights_ := some (freshInputWeights st dr x.cols),
    readout_idx_ := some (freshReadout st dr),
    components_ := some (fitComponents st dr x) }

/-- `fit_transform` (lines 161–177): `_fit_transform` then readout extraction.
`check_array(x, ensure_2d=True)` (line 111) rejects empty input (default
`ensure_min_samples=1`, `ensure_min_features=1`).  In the fit path the fresh
input weights always match the current feature count, so the dot products
cannot misalign. -/
noncomputable def fitTransformE (st : ESNState) (dr : Draws) (x : Mat) :
    Except Err (Mat × ESNState) :=
  if x.rows = 0 ∨ x.cols = 0 then Except.error Err.validationError
  else
    match readoutE (fitComponents st dr x) (freshReadout st dr) st.discard_steps with
    | Except.error e => Except.error e
    | Except.ok r => Except.ok (r, fitState st dr x)

/-- The recurrent weights `transform` uses (lines 195–200): the existing
`weights_` if present, else a fresh draw rescaled exactly as in fit. -/
noncomputable def transResolvedW (st : ESNState) (dr : Draws) : Mat :=
  st.weights_.getD (freshWeights st dr)

/-- The input weights `transform` uses (lines 202–205): existing if present,
else freshly drawn at the current feature count. -/
def transResolvedIw (st : ESNState) (dr : Draws) (nf : ℕ) : Mat :=
  st.input_weights_.getD (freshInputWeights st dr nf)

/-- The readout indices `transform` uses (lines 207–210): existing if present,
else a fresh permutation prefix. -/
def transResolvedIdx (st : ESNState) (dr : Draws) : List ℕ :=
  st.readout_idx_.getD (freshReadout st dr)

/-- The state trace `transform` computes (lines 212–223), from the resolved
weight structures. -/
noncomputable def transComponents (st : ESNState) (dr : Draws) (x : Mat) : Mat :=
  componentsOf (transResolvedIw st dr x.cols) (transResolvedW st dr) st.damping x
    st.n_components

/-- The object state after a successful `transform` call: the lazily resolved
weight structures are in place (unchanged when they were already present) and
`components_` holds the new trace. -/
noncomputable def transState (st : ESNState) (dr : Draws) (x : Mat) : ESNState :=
  { st with
    weights_ := some (transResolvedW st dr),
    input_weights_ := some (transResolvedIw st dr x.cols),
    readout_idx_ := some (transResolvedIdx st dr),
    components_ := some (transComponents st dr x) }

/-- `transform` (lines 179–225).  `check_array` as in fit; then the lazy
initialization of any absent weight structure; then the propagation loop.  In
the loop's first iteration (`n_samples ≥ 1` is guaranteed by `check_array`)
`input_weights_.dot(u)` raises numpy's shape-mismatch `ValueError` when the
stored input weights' column count `1 + n_features_at_init` differs from the
current `1 + n_features`; this is the dimension-mismatch failure, modelled as
a check before the loop since its condition does not depend on `t`. -/
noncomputable def transformE (st : ESNState) (dr : Draws) (x : Mat) :
    Except Err (Mat × ESNState) :=
  if x.rows = 0 ∨ x.cols = 0 then Except.error Err.validationError
  else if (transResolvedIw st dr x.cols).cols ≠ 1 + x.cols then
    Except.error Err.dimMismatch
  else
    match readoutE (transComponents st dr x) (transResolvedIdx st dr)
        st.discard_steps with
    | Except.error e => Except.error e
    | Except.ok r => Except.ok (r, transState st dr x)

/-- The spec's propagation recurrence, written from its words:
`a_{-1} = 0`; `a_t = (1 − damping)·a_{t−1} + damping·tanh(InputWeights·u_t +
RecurrentWeights·a_{t−1})`, tanh element-wise.  `aSpec (t+1)` is the spec's
`a_t`, `aSpec 0` the spec's `a_{-1}`. -/
noncomputable def aSpec (iw w : Mat) (damping : ℝ) (x : Mat) : ℕ → ℕ → ℝ
  | 0 => fun _ => 0
  | t + 1 => fun i =>
      (1 - damping) * aSpec iw w damping x t i +
        damping *
          Real.tanh
            (dotRow iw.entry iw.cols (uRow x t) i +
              dotRow w.entry w.cols (aSpec iw w damping x t) i)

/-- `μ·I − M`, the matrix whose singularity characterizes eigenvalues. -/
def charMatrix {n : ℕ} (M : Matrix (Fin n) (Fin n) ℂ) (μ : ℂ) :
    Matrix (Fin n) (Fin n) ℂ :=
  μ • (1 : Matrix (Fin n) (Fin n) ℂ) - M

/-- Modelled from the spec: the eigensolver collaborator
`np.max(np.abs(la.eig(M)[0]))` is external numerical code absent from the
source; per the spec, `ρ` is the maximum complex magnitude over the
eigenvalues of `M`, i.e. over the roots of `det(μ·I − M)`. -/
def isSpecRad {n : ℕ} (M : Matrix (Fin n) (Fin n) ℂ) (ρ : ℝ) : Prop :=
  (∀ μ : ℂ, (charMatrix M μ).det = 0 → Complex.abs μ ≤ ρ) ∧
    ∃ μ : ℂ, (charMatrix M μ).det = 0 ∧ Complex.abs μ = ρ

/-- The top-left `n × n` block of a `Mat`, viewed over `ℂ` so eigenvalue
statements can be made about it. -/
def toCMatrix (M : Mat) (n : ℕ) : Matrix (Fin n) (Fin n) ℂ :=
  Matrix.of fun i j => ((M.entry i.1 j.1 : ℝ) : ℂ)

/-- Observer: did the call return normally? -/
def resultOk (e : Except Err (Mat × ESNState)) : Bool :=
  match e with
  | Except.ok _ => true
  | Except.error _ => false

/-- Observer: the shape of a returned readout matrix. -/
def resultShape (e : Except Err (Mat × ESNState)) : Option (ℕ × ℕ) :=
  match e with
  | Except.ok p => some (p.1.rows, p.1.cols)
  | Except.error _ => none

/-- The propagation loop's invariant: after processing time steps
`0 .. ns-1`, the running activation is the spec's `a_{ns-1}` and every written
column `t < ns` is the vertical concatenation `[u_t ; a_t]`. -/
lemma esnLoop_eq (iw w : Mat) (d : ℝ) (x : Mat) (k ns : ℕ) :
    (esnLoop iw w d x k ns).1 = aSpec iw w d x ns ∧
      ∀ i t, (esnLoop iw w d x k ns).2 i t =
        if t < ns then vstackCol (uRow x t) (aSpec iw w d x (t + 1)) k i else 0 := by
  induction ns with
  | zero =>
      refine ⟨rfl, fun i t => ?_⟩
      simp [esnLoop]
  | succ n ih =>
      have hstep : esnLoop iw w d x k (n + 1) =
          loopBody iw w d x k (esnLoop iw w d x k n) n := by
        unfold esnLoop
        rw [List.range_succ, List.foldl_append]
        rfl
      have hfst : (esnLoop iw w d x k (n + 1)).1 = aSpec iw w d x (n + 1) := by
        rw [hstep]
        show stepCurr iw w d (uRow x n) (esnLoop iw w d x k n).1 = _
        rw [ih.1]
        rfl
      refine ⟨hfst, fun i t => ?_⟩
      rw [hstep]
      show (if t = n then
          vstackCol (uRow x n) (stepCurr iw w d (uRow x n) (esnLoop iw w d x k n).1) k i
        else (esnLoop iw w d x k n).2 i t) = _
      by_cases ht : t = n
      · subst ht
        rw [if_pos rfl, if_pos (Nat.lt_succ_self t), ih.1]
        rfl
      · rw [if_neg ht, ih.2 i t]
        by_cases hlt : t < n
        · rw [if_pos hlt, if_pos (Nat.lt_succ_of_lt hlt)]
        · rw [if_neg hlt, if_neg (by omega)]

/-- C1: for every initialized instance (arbitrary weight matrices) and input
with `t < n_samples`, the propagation code computes the state trace by the
spec's recurrence: `a_{-1} = 0` (that is `aSpec 0`), and column `t` of
`components_` is the vertical concatenation `[u_t ; a_t]` of length
`1 + n_features + n_components`, where `a_t = (1-damping)·a_{t-1} +
damping·tanh(InputWeights·u_t + RecurrentWeights·a_{t-1})` element-wise
(`aSpec` is that recurrence verbatim).  `componentsOf` is the trace used by
both `fit_transform` and `transform`. -/
theorem esn_state_trace_follows_recurrence (iw w : Mat) (d : ℝ) (x : Mat)
    (nc t : ℕ) (ht : t < x.rows) :
    aSpec iw w d x 0 = (fun _ => (0 : ℝ)) ∧
      ∀ i, (componentsOf iw w d x nc).entry i t =
        vstackCol (uRow x t) (aSpec iw w d x (t + 1)) (1 + x.cols) i := by
  refine ⟨rfl, fun i => ?_⟩
  have h := (esnLoop_eq iw w d x (1 + x.cols) x.rows).2 i t
  show (esnLoop iw w d x (1 + x.cols) x.rows).2 i t = _
  rw [h, if_pos ht]

/-- Concrete input for the C1 witness: a single-sample, single-feature
sequence with zero weight matrices. -/
def xC1 : Mat := ⟨1, 1, fun _ _ => 0⟩

/-- Zero matrix used in witnesses. -/
def zeroMatW : Mat := ⟨1, 2, fun _ _ => 0⟩

/-- Zero square matrix used in witnesses. -/
def zeroMatSq : Mat := ⟨1, 1, fun _ _ => 0⟩

/-- Witness for C1 at a concrete instance. -/
theorem esn_state_trace_follows_recurrence_witness :
    0 < xC1.rows ∧
      (aSpec zeroMatW zeroMatSq 0.5 xC1 0 = (fun _ => (0 : ℝ)) ∧
        ∀ i, (componentsOf zeroMatW zeroMatSq 0.5 xC1 1).entry i 0 =
          vstackCol (uRow xC1 0) (aSpec zeroMatW zeroMatSq 0.5 xC1 1) (1 + xC1.cols) i) :=
  ⟨by decide, esn_state_trace_follows_recurrence zeroMatW zeroMatSq 0.5 xC1 1 0 (by decide)⟩

/-- Successful `fit_transform`: explicit description of the returned readout
matrix and the updated object state (shared helper for several claims). -/
lemma fitTransformE_ok (st : ESNState) (dr : Draws) (x : Mat)
    (h1 : x.rows ≠ 0) (h2 : x.cols ≠ 0)
    (hb : ∀ j ∈ freshReadout st dr, j < 1 + x.cols + st.n_components) :
    fitTransformE st dr x = Except.ok
      (⟨x.rows - st.discard_steps, (freshReadout st dr).length,
        fun i j => (fitComponents st dr x).entry ((freshReadout st dr).getD j 0)
          (i + st.discard_steps)⟩,
       fitState st dr x) := by
  have hb' : ∀ j ∈ freshReadout st dr, j < (fitComponents st dr x).rows := hb
  unfold fitTransformE readoutE
  rw [if_neg (by tauto), if_pos hb']
  rfl

/-- Length of the stored readout index list, given the random generator's
permutation contract (shared helper). -/
lemma freshReadout_length (st : ESNState) (dr : Draws) (nf : ℕ)
    (hperm : dr.perm.Perm (List.range' (1 + nf) st.n_components)) :
    (freshReadout st dr).length = min st.n_readout st.n_components := by
  unfold freshReadout
  rw [List.length_take, hperm.length_eq, List.length_range']

/-- Readout indices lie below the trace's row count, given the permutation
contract (shared helper). -/
lemma freshReadout_bounded (st : ESNState) (dr : Draws) (nf : ℕ)
    (hperm : dr.perm.Perm (List.range' (1 + nf) st.n_components)) :
    ∀ j ∈ freshReadout st dr, j < 1 + nf + st.n_components := by
  intro j hj
  have hj' : j ∈ dr.perm := List.mem_of_mem_take hj
  have := hperm.mem_iff.mp hj'
  rw [List.mem_range'_1] at this
  omega

/-- C2 counterexample: with `n_readout = 2 > 1 = n_components` on a
`(1, 1)`-shaped input with `discard_steps = 0`, `fit_transform` returns a
`(1, 1)` matrix, not the `(1, 2) = (n_samples − discard_steps, n_readout)`
matrix the claim requires. -/
def stC2 : ESNState :=
  { n_readout := 2, n_components := 1, damping := 0.5, weight_scaling := 0.9,
    discard_steps := 0, input_weights_ := none, readout_idx_ := none,
    weights_ := none, components_ := none }

/-- Draws for the C2/C3 counterexamples: the permutation of
`range(1+1, 1+1+1) = [2]`. -/
def drC2 : Draws := ⟨fun _ _ => 0, 1, fun _ _ => 0, [2]⟩

/-- A `(1, 1)` input sequence. -/
def xC2 : Mat := ⟨1, 1, fun _ _ => 0⟩

/-- C2 counterexample: the output shape is `(1, 1)`, not `(1, n_readout) = (1, 2)`. -/
theorem fitTransform_shape_cex :
    resultShape (fitTransformE stC2 drC2 xC2) = some (1, 1) ∧
      ((1, 1) : ℕ × ℕ) ≠ ((1, 2) : ℕ × ℕ) := by
  exact ⟨by decide, by decide⟩

/-- C2 (amended): on an `(n_samples, n_features)` input, `fit_transform`
returns a matrix of shape `(n_samples − discard_steps, min(n_readout,
n_components))`; in particular `discard_steps ≥ n_samples` yields `0` rows
(truncated subtraction) and no error. -/
theorem fitTransform_shape_law (st : ESNState) (dr : Draws) (x : Mat)
    (hperm : dr.perm.Perm (List.range' (1 + x.cols) st.n_components))
    (h1 : x.rows ≠ 0) (h2 : x.cols ≠ 0) :
    ∃ r st', fitTransformE st dr x = Except.ok (r, st') ∧
      r.rows = x.rows - st.discard_steps ∧
      r.cols = min st.n_readout st.n_components := by
  refine ⟨_, _, fitTransformE_ok st dr x h1 h2 (freshReadout_bounded st dr x.cols hperm),
    rfl, freshReadout_length st dr x.cols hperm⟩

/-- State and input for the C2/C10 witnesses: `n_readout = 1 ≤ 2 =
n_components`, `discard_steps = 3` exceeding `n_samples = 2`. -/
def stSh : ESNState :=
  { n_readout := 1, n_components := 2, damping := 0.5, weight_scaling := 0.9,
    discard_steps := 3, input_weights_ := none, readout_idx_ := none,
    weights_ := none, components_ := none }

/-- Draws for the shape witnesses: permutation of `range(2, 4) = [2, 3]`. -/
def drSh : Draws := ⟨fun _ _ => 0, 1, fun _ _ => 0, [3, 2]⟩

/-- A `(2, 1)` input sequence. -/
def xSh : Mat := ⟨2, 1, fun _ _ => 0⟩

/-- Witness for the amended C2 at a concrete instance with
`discard_steps > n_samples`: the call succeeds with an empty result. -/
theorem fitTransform_shape_law_witness :
    drSh.perm.Perm (List.range' (1 + xSh.cols) stSh.n_components) ∧
      xSh.rows ≠ 0 ∧ xSh.cols ≠ 0 ∧
      (∃ r st', fitTransformE stSh drSh xSh = Except.ok (r, st') ∧
        r.rows = xSh.rows - stSh.discard_steps ∧
        r.cols = min stSh.n_readout stSh.n_components) :=
  ⟨by decide, by decide, by decide,
    fitTransform_shape_law stSh drSh xSh (by decide) (by decide) (by decide)⟩

/-- C3 counterexample: with `n_readout = 2 > 1 = n_components`,
`fit_transform` (the initialization path) completes normally — no
`ConfigurationError`, no failure of any kind. -/
theorem readout_config_no_error_cex :
    resultOk (fitTransformE stC2 drC2 xC2) = true := by decide

/-- C3 (amended): for `n_readout > n_components`, initialization does not
fail; it silently truncates the readout index list to the `n_components`
available reservoir indices and returns a result. -/
theorem readout_config_truncates (st : ESNState) (dr : Draws) (x : Mat)
    (hgt : st.n_components < st.n_readout)
    (hperm : dr.perm.Perm (List.range' (1 + x.cols) st.n_components))
    (h1 : x.rows ≠ 0) (h2 : x.cols ≠ 0) :
    ∃ r st', fitTransformE st dr x = Except.ok (r, st') ∧
      st'.readout_idx_ = some (freshReadout st dr) ∧
      (freshReadout st dr).length = st.n_components := by
  refine ⟨_, _, fitTransformE_ok st dr x h1 h2 (freshReadout_bounded st dr x.cols hperm),
    rfl, ?_⟩
  rw [freshReadout_length st dr x.cols hperm]
  omega

/-- Witness for the amended C3 at a concrete instance. -/
theorem readout_config_truncates_witness :
    stC2.n_components < stC2.n_readout ∧
      drC2.perm.Perm (List.range' (1 + xC2.cols) stC2.n_components) ∧
      xC2.rows ≠ 0 ∧ xC2.cols ≠ 0 ∧
      (∃ r st', fitTransformE stC2 drC2 xC2 = Except.ok (r, st') ∧
        st'.readout_idx_ = some (freshReadout stC2 drC2) ∧
        (freshReadout stC2 drC2).length = stC2.n_components) :=
  ⟨by decide, by decide, by decide, by decide,
    readout_config_truncates stC2 drC2 xC2 (by decide) (by decide) (by decide) (by decide)⟩

/-- C10: for `n_readout > n_components`, `fit_transform` completes without
raising and the output has only `n_components = min(n_readout, n_components)`
columns, with `n_samples − discard_steps` rows. -/
theorem fitTransform_truncated_shape (st : ESNState) (dr : Draws) (x : Mat)
    (hgt : st.n_components < st.n_readout)
    (hperm : dr.perm.Perm (List.range' (1 + x.cols) st.n_components))
    (h1 : x.rows ≠ 0) (h2 : x.cols ≠ 0) :
    ∃ r st', fitTransformE st dr x = Except.ok (r, st') ∧
      r.rows = x.rows - st.discard_steps ∧
      r.cols = st.n_components ∧
      r.cols = min st.n_readout st.n_components := by
  refine ⟨_, _, fitTransformE_ok st dr x h1 h2 (freshReadout_bounded st dr x.cols hperm),
    rfl, ?_, ?_⟩
  · show (freshReadout st dr).length = st.n_components
    rw [freshReadout_length st dr x.cols hperm]
    omega
  · show (freshReadout st dr).length = min st.n_readout st.n_components
    exact freshReadout_length st dr x.cols hperm

/-- Witness for C10 at a concrete instance. -/
theorem fitTransform_truncated_shape_witness :
    stC2.n_components < stC2.n_readout ∧
      drC2.perm.Perm (List.range' (1 + xC2.cols) stC2.n_components) ∧
      xC2.rows ≠ 0 ∧ xC2.cols ≠ 0 ∧
      (∃ r st', fitTransformE stC2 drC2 xC2 = Except.ok (r, st') ∧
        r.rows = xC2.rows - stC2.discard_steps ∧
        r.cols = stC2.n_components ∧
        r.cols = min stC2.n_readout stC2.n_components) :=
  ⟨by decide, by decide, by decide, by decide,
    fitTransform_truncated_shape stC2 drC2 xC2 (by decide) (by decide) (by decide) (by decide)⟩

/-- C4 counterexample: constructing with `n_readout = 0 < 1` and
`damping = 2 ∉ [0,1]` succeeds and simply stores the values — no
`ConfigurationError`, no validation of any parameter. -/
theorem init_no_validation_cex :
    esnInitE 0 100 2 0.9 0 = Except.ok
      { n_readout := 0, n_components := 100, damping := 2, weight_scaling := 0.9,
        discard_steps := 0, input_weights_ := none, readout_idx_ := none,
        weights_ := none, components_ := none } := rfl

/-- C4 (amended): the constructor performs no range validation; for every
parameter combination it succeeds, storing the parameters verbatim with the
three weight structures absent, and the defaults are
`n_components=100, damping=0.5, weight_scaling=0.9, discard_steps=0`. -/
theorem init_stores_params (nr nc : ℕ) (d ws : ℝ) (ds : ℕ) :
    esnInitE nr nc d ws ds = Except.ok
      { n_readout := nr, n_components := nc, damping := d, weight_scaling := ws,
        discard_steps := ds, input_weights_ := none, readout_idx_ := none,
        weights_ := none, components_ := none } ∧
      esnInitDefault nr = esnInitE nr 100 0.5 0.9 0 :=
  ⟨rfl, rfl⟩

/-- Successful `transform`: explicit description of the returned readout
matrix and the updated object state (shared helper). -/
lemma transformE_ok (st : ESNState) (dr : Draws) (x : Mat)
    (h1 : x.rows ≠ 0) (h2 : x.cols ≠ 0)
    (hdim : (transResolvedIw st dr x.cols).cols = 1 + x.cols)
    (hb : ∀ j ∈ transResolvedIdx st dr, j < 1 + x.cols + st.n_components) :
    transformE st dr x = Except.ok
      (⟨x.rows - st.discard_steps, (transResolvedIdx st dr).length,
        fun i j => (transComponents st dr x).entry ((transResolvedIdx st dr).getD j 0)
          (i + st.discard_steps)⟩,
       transState st dr x) := by
  have hb' : ∀ j ∈ transResolvedIdx st dr, j < (transComponents st dr x).rows := hb
  unfold transformE readoutE
  rw [if_neg (by tauto), if_neg (not_not_intro hdim), if_pos hb']
  rfl

/-- C6: an already-initialized instance, asked to transform a sequence whose
feature count differs from the one the stored input weights were built for
(`input_weights_` has `1 + n_features_at_init` columns), fails with the
dimension-mismatch error. -/
theorem transform_dim_mismatch (st : ESNState) (dr : Draws) (x iw : Mat)
    (nf0 : ℕ) (hiw : st.input_weights_ = some iw) (hcols : iw.cols = 1 + nf0)
    (h1 : x.rows ≠ 0) (h2 : x.cols ≠ 0) (hne : nf0 ≠ x.cols) :
    transformE st dr x = Except.error Err.dimMismatch := by
  have hres : transResolvedIw st dr x.cols = iw := by
    unfold transResolvedIw
    rw [hiw]
    rfl
  unfold transformE
  rw [if_neg (by tauto), if_pos (by rw [hres, hcols]; omega)]

/-- An initialized state for the C6 witness: trained at `n_features = 1`
(input weights with `1 + 1` columns). -/
def stC6 : ESNState :=
  { n_readout := 1, n_components := 1, damping := 0.5, weight_scaling := 0.9,
    discard_steps := 0, input_weights_ := some zeroMatW, readout_idx_ := some [2],
    weights_ := some zeroMatSq, components_ := none }

/-- A `(1, 2)` input sequence: two features, unlike the one feature `stC6`
was initialized with. -/
def xC6 : Mat := ⟨1, 2, fun _ _ => 0⟩

/-- Witness for C6 at a concrete instance. -/
theorem transform_dim_mismatch_witness :
    stC6.input_weights_ = some zeroMatW ∧ zeroMatW.cols = 1 + 1 ∧
      xC6.rows ≠ 0 ∧ xC6.cols ≠ 0 ∧ 1 ≠ xC6.cols ∧
      transformE stC6 drC2 xC6 = Except.error Err.dimMismatch :=
  ⟨rfl, by decide, by decide, by decide, by decide,
    transform_dim_mismatch stC6 drC2 xC6 zeroMatW 1 rfl (by decide) (by decide)
      (by decide) (by decide)⟩

/-- C7: `fit_transform` recreates all three weight structures from the fresh
draws on every call — its result state holds the fresh values regardless of
what (if anything) was stored before — whereas `transform` resolves each
structure with `Option.getD`: the stored value when present, the fresh draw
only when absent. -/
theorem fit_recreates_transform_reuses (st : ESNState) (dr : Draws) (x : Mat)
    (h1 : x.rows ≠ 0) (h2 : x.cols ≠ 0)
    (hb1 : ∀ j ∈ freshReadout st dr, j < 1 + x.cols + st.n_components)
    (hdim : (transResolvedIw st dr x.cols).cols = 1 + x.cols)
    (hb2 : ∀ j ∈ transResolvedIdx st dr, j < 1 + x.cols + st.n_components) :
    (∃ r st', fitTransformE st dr x = Except.ok (r, st') ∧
        st'.weights_ = some (freshWeights st dr) ∧
        st'.input_weights_ = some (freshInputWeights st dr x.cols) ∧
        st'.readout_idx_ = some (freshReadout st dr)) ∧
      (∃ r st', transformE st dr x = Except.ok (r, st') ∧
        st'.weights_ = some (st.weights_.getD (freshWeights st dr)) ∧
        st'.input_weights_ = some (st.input_weights_.getD (freshInputWeights st dr x.cols)) ∧
        st'.readout_idx_ = some (st.readout_idx_.getD (freshReadout st dr))) :=
  ⟨⟨_, _, fitTransformE_ok st dr x h1 h2 hb1, rfl, rfl, rfl⟩,
   ⟨_, _, transformE_ok st dr x h1 h2 hdim hb2, rfl, rfl, rfl⟩⟩

/-- A partially initialized state for the C7 witness: recurrent weights
already present, input weights and readout indices still absent. -/
def stC7 : ESNState :=
  { n_readout := 1, n_components := 1, damping := 0.5, weight_scaling := 0.9,
    discard_steps := 0, input_weights_ := none, readout_idx_ := none,
    weights_ := some zeroMatSq, components_ := none }

/-- A `(1, 1)` input sequence for the C7 witness. -/
def xC7 : Mat := ⟨1, 1, fun _ _ => 0⟩

/-- Witness for C7 at a concrete, partially initialized instance. -/
theorem fit_recreates_transform_reuses_witness :
    xC7.rows ≠ 0 ∧ xC7.cols ≠ 0 ∧
      (∀ j ∈ freshReadout stC7 drC2, j < 1 + xC7.cols + stC7.n_components) ∧
      (transResolvedIw stC7 drC2 xC7.cols).cols = 1 + xC7.cols ∧
      (∀ j ∈ transResolvedIdx stC7 drC2, j < 1 + xC7.cols + stC7.n_components) ∧
      ((∃ r st', fitTransformE stC7 drC2 xC7 = Except.ok (r, st') ∧
          st'.weights_ = some (freshWeights stC7 drC2) ∧
          st'.input_weights_ = some (freshInputWeights stC7 drC2 xC7.cols) ∧
          st'.readout_idx_ = some (freshReadout stC7 drC2)) ∧
        (∃ r st', transformE stC7 drC2 xC7 = Except.ok (r, st') ∧
          st'.weights_ = some (stC7.weights_.getD (freshWeights stC7 drC2)) ∧
          st'.input_weights_ = some (stC7.input_weights_.getD (freshInputWeights stC7 drC2 xC7.cols)) ∧
          st'.readout_idx_ = some (stC7.readout_idx_.getD (freshReadout stC7 drC2)))) :=
  ⟨by decide, by decide, by decide, by decide, by decide,
    fit_recreates_transform_reuses stC7 drC2 xC7 (by decide) (by decide) (by decide)
      (by decide) (by decide)⟩

/-- C8: on a fully initialized instance, `transform` succeeds, leaves all
three weight structures unchanged, and a second `transform` on the resulting
state with the same sequence — and arbitrary fresh randomness `dr'`, which it
never consumes — returns the identical output matrix, again leaving the
weight structures unchanged. -/
theorem transform_idempotent (st : ESNState) (dr dr' : Draws) (x w iw : Mat)
    (idx : List ℕ) (hw : st.weights_ = some w)
    (hiw : st.input_weights_ = some iw) (hidx : st.readout_idx_ = some idx)
    (h1 : x.rows ≠ 0) (h2 : x.cols ≠ 0) (hdim : iw.cols = 1 + x.cols)
    (hb : ∀ j ∈ idx, j < 1 + x.cols + st.n_components) :
    ∃ r st', transformE st dr x = Except.ok (r, st') ∧
      st'.weights_ = some w ∧ st'.input_weights_ = some iw ∧
      st'.readout_idx_ = some idx ∧
      ∃ st2, transformE st' dr' x = Except.ok (r, st2) ∧
        st2.weights_ = some w ∧ st2.input_weights_ = some iw ∧
        st2.readout_idx_ = some idx := by
  have e1 : transResolvedW st dr = w := by
    unfold transResolvedW; rw [hw]; rfl
  have e2 : transResolvedIw st dr x.cols = iw := by
    unfold transResolvedIw; rw [hiw]; rfl
  have e3 : transResolvedIdx st dr = idx := by
    unfold transResolvedIdx; rw [hidx]; rfl
  have hok1 := transformE_ok st dr x h1 h2 (by rw [e2]; exact hdim)
    (by rw [e3]; exact hb)
  have e1' : transResolvedW (transState st dr x) dr' = transResolvedW st dr := rfl
  have e2' : transResolvedIw (transState st dr x) dr' x.cols =
      transResolvedIw st dr x.cols := rfl
  have e3' : transResolvedIdx (transState st dr x) dr' = transResolvedIdx st dr := rfl
  have hok2 := transformE_ok (transState st dr x) dr' x h1 h2
    (by rw [e2', e2]; exact hdim) (by rw [e3', e3]; exact hb)
  refine ⟨_, _, hok1, ?_, ?_, ?_, transState (transState st dr x) dr' x, ?_, ?_, ?_, ?_⟩
  · show some (transResolvedW st dr) = some w; rw [e1]
  · show some (transResolvedIw st dr x.cols) = some iw; rw [e2]
  · show some (transResolvedIdx st dr) = some idx; rw [e3]
  · rw [hok2]; rfl
  · show some (transResolvedW (transState st dr x) dr') = some w; rw [e1', e1]
  · show some (transResolvedIw (transState st dr x) dr' x.cols) = some iw; rw [e2', e2]
  · show some (transResolvedIdx (transState st dr x) dr') = some idx; rw [e3', e3]

/-- A fully initialized state for the C8 witness. -/
def stC8 : ESNState :=
  { n_readout := 1, n_components := 1, damping := 0.5, weight_scaling := 0.9,
    discard_steps := 0, input_weights_ := some zeroMatW, readout_idx_ := some [2],
    weights_ := some zeroMatSq, components_ := none }

/-- A `(1, 1)` input sequence for the C8 witness. -/
def xC8 : Mat := ⟨1, 1, fun _ _ => 0⟩

/-- Witness for C8 at a concrete, fully initialized instance (the two calls
are given different draw bundles `drC2` and `drSh`; neither is consumed). -/
theorem transform_idempotent_witness :
    stC8.weights_ = some zeroMatSq ∧ stC8.input_weights_ = some zeroMatW ∧
      stC8.readout_idx_ = some [2] ∧ xC8.rows ≠ 0 ∧ xC8.cols ≠ 0 ∧
      zeroMatW.cols = 1 + xC8.cols ∧
      (∀ j ∈ [2], j < 1 + xC8.cols + stC8.n_components) ∧
      (∃ r st', transformE stC8 drC2 xC8 = Except.ok (r, st') ∧
        st'.weights_ = some zeroMatSq ∧ st'.input_weights_ = some zeroMatW ∧
        st'.readout_idx_ = some [2] ∧
        ∃ st2, transformE st' drSh xC8 = Except.ok (r, st2) ∧
          st2.weights_ = some zeroMatSq ∧ st2.input_weights_ = some zeroMatW ∧
          st2.readout_idx_ = some [2]) :=
  ⟨rfl, rfl, rfl, by decide, by decide, by decide, by decide,
    transform_idempotent stC8 drC2 drSh xC8 zeroMatSq zeroMatW [2] rfl rfl rfl
      (by decide) (by decide) (by decide) (by decide)⟩

/-- C9: with the random generator's permutation contract and
`n_readout ≤ n_components`, the stored readout index list has exactly
`n_readout` pairwise-distinct entries, each in
`[1+n_features, 1+n_features+n_components)`, is exactly the prefix of the
drawn permutation in draw order (not sorted), and whenever readout extraction
succeeds, output column `j` reads row `ReadoutIndices[j]` of the state trace:
`output[i, j] = StateTrace[ReadoutIndices[j], discard + i]`. -/
theorem readout_indices_invariant (st : ESNState) (dr : Draws) (nf : ℕ)
    (hperm : dr.perm.Perm (List.range' (1 + nf) st.n_components))
    (hnr : st.n_readout ≤ st.n_components) :
    (freshReadout st dr).length = st.n_readout ∧
      (freshReadout st dr).Nodup ∧
      (∀ j ∈ freshReadout st dr, 1 + nf ≤ j ∧ j < 1 + nf + st.n_components) ∧
      freshReadout st dr = dr.perm.take st.n_readout ∧
      ∀ comps discard r, readoutE comps (freshReadout st dr) discard = Except.ok r →
        ∀ i j, r.entry i j =
          comps.entry ((freshReadout st dr).getD j 0) (i + discard) := by
  refine ⟨?_, ?_, ?_, rfl, ?_⟩
  · rw [freshReadout_length st dr nf hperm]
    omega
  · exact ((List.take_sublist _ _).nodup (hperm.nodup_iff.mpr (List.nodup_range' _ _)))
  · intro j hj
    have hj' : j ∈ dr.perm := List.mem_of_mem_take hj
    have := hperm.mem_iff.mp hj'
    rw [List.mem_range'_1] at this
    omega
  · intro comps discard r h
    unfold readoutE at h
    by_cases hc : ∀ j ∈ freshReadout st dr, j < comps.rows
    · rw [if_pos hc] at h
      injection h with h'
      subst h'
      intro i j
      rfl
    · rw [if_neg hc] at h
      exact Except.noConfusion h

/-- A configuration for the C9 witness: `n_readout = 2 = n_components`. -/
def stShR : ESNState :=
  { n_readout := 2, n_components := 2, damping := 0.5, weight_scaling := 0.9,
    discard_steps := 0, input_weights_ := none, readout_idx_ := none,
    weights_ := none, components_ := none }

/-- Witness for C9 at a concrete instance: `n_features = 1`,
`n_components = 2`, `n_readout = 2`, drawn permutation `[3, 2]` of
`range(2, 4)`. -/
theorem readout_indices_invariant_witness :
    drSh.perm.Perm (List.range' (1 + 1) stShR.n_components) ∧
      stShR.n_readout ≤ stShR.n_components ∧
      ((freshReadout stShR drSh).length = stShR.n_readout ∧
        (freshReadout stShR drSh).Nodup ∧
        (∀ j ∈ freshReadout stShR drSh, 1 + 1 ≤ j ∧ j < 1 + 1 + stShR.n_components) ∧
        freshReadout stShR drSh = drSh.perm.take stShR.n_readout ∧
        ∀ comps discard r, readoutE comps (freshReadout stShR drSh) discard = Except.ok r →
          ∀ i j, r.entry i j =
            comps.entry ((freshReadout stShR drSh).getD j 0) (i + discard)) :=
  ⟨by decide, by decide,
    readout_indices_invariant stShR drSh 1 (by decide) (by decide)⟩

/-- A spectral radius is a maximum of complex magnitudes, hence nonnegative. -/
lemma isSpecRad_nonneg {n : ℕ} (M : Matrix (Fin n) (Fin n) ℂ) (ρ : ℝ)
    (h : isSpecRad M ρ) : 0 ≤ ρ := by
  obtain ⟨μ, _, hμ⟩ := h.2
  rw [← hμ]
  exact AbsoluteValue.nonneg _ _

/-- Scaling a matrix by a nonzero scalar scales its spectral radius by the
scalar's magnitude. -/
lemma isSpecRad_smul {n : ℕ} (M : Matrix (Fin n) (Fin n) ℂ) (ρ : ℝ) (c : ℂ)
    (hc : c ≠ 0) (h : isSpecRad M ρ) : isSpecRad (c • M) (Complex.abs c * ρ) := by
  have key : ∀ μ : ℂ, charMatrix (c • M) μ = c • charMatrix M (μ / c) := by
    intro μ
    unfold charMatrix
    have hμc : c * (μ / c) = μ := by field_simp
    rw [smul_sub, smul_smul, hμc]
  have hdet : ∀ μ : ℂ, (charMatrix (c • M) μ).det = c ^ n * (charMatrix M (μ / c)).det := by
    intro μ
    rw [key, Matrix.det_smul, Fintype.card_fin]
  have hcpow : c ^ n ≠ 0 := pow_ne_zero n hc
  have hcabs : 0 < Complex.abs c := AbsoluteValue.pos _ hc
  constructor
  · intro μ hμ
    rw [hdet] at hμ
    rcases mul_eq_zero.mp hμ with hbad | hroot
    · exact absurd hbad hcpow
    · have hle : Complex.abs (μ / c) ≤ ρ := h.1 _ hroot
      rw [map_div₀] at hle
      calc Complex.abs μ = Complex.abs μ / Complex.abs c * Complex.abs c := by
            rw [div_mul_cancel₀ _ (ne_of_gt hcabs)]
        _ ≤ ρ * Complex.abs c := by
            exact mul_le_mul_of_nonneg_right hle (le_of_lt hcabs)
        _ = Complex.abs c * ρ := mul_comm _ _
  · obtain ⟨ν, hν, hνabs⟩ := h.2
    refine ⟨c * ν, ?_, ?_⟩
    · rw [hdet, mul_div_cancel_left₀ _ hc, hν, mul_zero]
    · rw [map_mul, hνabs]

/-- The complexified rescaled weights are the scalar `weight_scaling / ρ`
times the complexified draw. -/
lemma toCMatrix_fresh (st : ESNState) (dr : Draws) :
    toCMatrix (freshWeights st dr) st.n_components =
      (((st.weight_scaling / dr.rho : ℝ) : ℂ)) •
        toCMatrix (drawnWeights st dr) st.n_components := by
  ext i j
  simp [toCMatrix, freshWeights, drawnWeights, Matrix.smul_apply, smul_eq_mul,
    Matrix.of_apply]
  ring

/-- C5 (amended): the source has no zero-radius guard (see the
counterexample); the rescaling itself is `weights_ *= weight_scaling / ρ`,
and whenever the drawn matrix's true spectral radius `ρ` is nonzero and
`weight_scaling > 0`, the rescaled matrix `freshWeights` has spectral radius
exactly `weight_scaling`. -/
theorem rescaled_weights_spectral_radius (st : ESNState) (dr : Draws)
    (hρ : isSpecRad (toCMatrix (drawnWeights st dr) st.n_components) dr.rho)
    (h0 : dr.rho ≠ 0) (hws : 0 < st.weight_scaling) :
    isSpecRad (toCMatrix (freshWeights st dr) st.n_components)
      st.weight_scaling := by
  have hρpos : 0 < dr.rho :=
    lt_of_le_of_ne (isSpecRad_nonneg _ _ hρ) (Ne.symm h0)
  have hcne : ((st.weight_scaling / dr.rho : ℝ) : ℂ) ≠ 0 := by
    rw [Complex.ofReal_ne_zero]
    exact ne_of_gt (div_pos hws hρpos)
  have h := isSpecRad_smul _ dr.rho _ hcne hρ
  have habs : Complex.abs ((st.weight_scaling / dr.rho : ℝ) : ℂ) * dr.rho =
      st.weight_scaling := by
    rw [Complex.abs_ofReal, abs_of_pos (div_pos hws hρpos),
      div_mul_cancel₀ _ h0]
  rw [toCMatrix_fresh]
  convert h using 1
  exact habs.symm

/-- Configuration for the C5 counterexample. -/
def stC5 : ESNState :=
  { n_readout := 1, n_components := 2, damping := 0.5, weight_scaling := 0.9,
    discard_steps := 0, input_weights_ := none, readout_idx_ := none,
    weights_ := none, components_ := none }

/-- Draws for the C5 counterexample: the recurrent draw is the nilpotent
matrix `[[0, 1], [0, 0]]`, whose spectral radius is genuinely `0` (the value
in the `rho` field). -/
def drC5 : Draws :=
  ⟨fun i j => if i = 0 ∧ j = 1 then 1 else 0, 0, fun _ _ => 0, [2, 3]⟩

/-- A `(1, 1)` input sequence for the C5 counterexample. -/
def xC5 : Mat := ⟨1, 1, fun _ _ => 0⟩

/-- The nilpotent draw of `drC5` has spectral radius `0`: its characteristic
determinant is `μ²`, whose only root is `0`. -/
lemma drC5_specRad_zero : isSpecRad (toCMatrix (drawnWeights stC5 drC5) 2) 0 := by
  have hd : ∀ μ : ℂ, (charMatrix (toCMatrix (drawnWeights stC5 drC5) 2) μ).det = μ * μ := by
    intro μ
    rw [Matrix.det_fin_two]
    simp [charMatrix, toCMatrix, drawnWeights, stC5, drC5, Matrix.sub_apply,
      Matrix.smul_apply, smul_eq_mul, Matrix.one_apply, Matrix.of_apply]
  constructor
  · intro μ h
    rw [hd, mul_self_eq_zero] at h
    simp [h]
  · exact ⟨0, by rw [hd, mul_zero], by simp⟩

/-- C5 counterexample: the drawn recurrent matrix has spectral radius `0`
(and the eigensolver output `rho` is `0`), yet initialization inside
`fit_transform` completes normally — the division is performed unguarded and
no `NumericalError` is raised. -/
theorem zero_spectral_radius_no_error_cex :
    isSpecRad (toCMatrix (drawnWeights stC5 drC5) 2) 0 ∧ drC5.rho = 0 ∧
      resultOk (fitTransformE stC5 drC5 xC5) = true :=
  ⟨drC5_specRad_zero, rfl, by decide⟩

/-- Configuration for the C5 witness: one reservoir neuron,
`weight_scaling = 2`. -/
def stC5w : ESNState :=
  { n_readout := 1, n_components := 1, damping := 0.5, weight_scaling := 2,
    discard_steps := 0, input_weights_ := none, readout_idx_ := none,
    weights_ := none, components_ := none }

/-- Draws for the C5 witness: the `1 × 1` recurrent draw `[[1]]`, spectral
radius `1`. -/
def drC5w : Draws := ⟨fun _ _ => 1, 1, fun _ _ => 0, [2]⟩

/-- The `1 × 1` draw `[[1]]` has spectral radius `1`. -/
lemma drC5w_specRad_one :
    isSpecRad (toCMatrix (drawnWeights stC5w drC5w) 1) 1 := by
  have hd : ∀ μ : ℂ, (charMatrix (toCMatrix (drawnWeights stC5w drC5w) 1) μ).det = μ - 1 := by
    intro μ
    rw [Matrix.det_fin_one]
    simp [charMatrix, toCMatrix, drawnWeights, stC5w, drC5w, Matrix.sub_apply,
      Matrix.smul_apply, smul_eq_mul, Matrix.one_apply, Matrix.of_apply]
  constructor
  · intro μ h
    rw [hd, sub_eq_zero] at h
    simp [h]
  · exact ⟨1, by rw [hd, sub_self], by simp⟩

/-- Witness for the amended C5 at a concrete instance: rescaling `[[1]]`
(spectral radius 1) by `weight_scaling / ρ = 2` yields spectral radius `2`. -/
theorem rescaled_weights_spectral_radius_witness :
    isSpecRad (toCMatrix (drawnWeights stC5w drC5w) 1) 1 ∧
      drC5w.rho ≠ 0 ∧ 0 < stC5w.weight_scaling ∧
      isSpecRad (toCMatrix (freshWeights stC5w drC5w) stC5w.n_components)
        stC5w.weight_scaling :=
  ⟨drC5w_specRad_one, by norm_num [drC5w], by norm_num [stC5w],
    rescaled_weights_spectral_radius stC5w drC5w drC5w_specRad_one
      (by norm_num [drC5w]) (by norm_num [stC5w])⟩
